import Mathlib

/-!
Verification of the metric-derivation layer of the SAM Telemetry Dashboard
(`src/streamlit_app.py`). The pandas data-frame computations are shallowly
embedded: a data frame is a `List` of row structures, column arithmetic is
row-wise rational arithmetic (`ℚ` models the exact real-number semantics of
the numeric columns), `groupby(...).sum()` is modelled by summing over the
rows whose key matches, with the distinct keys collected by `dedup`.
-/

namespace SAM

/-- One row of the normalized telemetry table (the columns the metric
calculators read: identity and categorical text columns plus the numeric
entitlement/usage/cost columns). -/
structure Row where
  EmployeeID : String
  DeviceID : String
  Vendor : String
  Product : String
  Location : String
  Department : String
  Edition : String
  EntitledLicenses : ℚ
  ActualUsage : ℚ
  CostPerLicense : ℚ
deriving DecidableEq, Repr

/-- The distinct vendors of the table, as produced by `sam.groupby("Vendor")`:
one group per distinct `Vendor` value. -/
def vendors (rows : List Row) : List String :=
  (rows.map Row.Vendor).dedup

/-- `groupby("Vendor")[col].sum()` for the group keyed by `v`: the sum of
column `f` over the rows whose `Vendor` equals `v`. -/
def sumBy (rows : List Row) (v : String) (f : Row → ℚ) : ℚ :=
  ((rows.filter (fun r => r.Vendor == v)).map f).sum

/-- `comp["OverUsage"] = comp["ActualUsage"] - comp["EntitledLicenses"]`
(line 275). -/
def overUsage (rows : List Row) (v : String) : ℚ :=
  sumBy rows v Row.ActualUsage - sumBy rows v Row.EntitledLicenses

/-- `comp["PenaltyRisk($)"] = comp["OverUsage"].apply(lambda x: max(0, x) * 200)`
(line 276). -/
def penaltyRisk (rows : List Row) (v : String) : ℚ :=
  max 0 (overUsage rows v) * 200

/-- `comp["UnderUtilization"] = comp["EntitledLicenses"] - comp["ActualUsage"]`
(line 277).  Note: this column is not clamped at zero. -/
def underUtilization (rows : List Row) (v : String) : ℚ :=
  sumBy rows v Row.EntitledLicenses - sumBy rows v Row.ActualUsage

/-- `comp["WastedSpend($)"] = comp["UnderUtilization"].clip(lower=0) * comp["CostPerLicense"]`
(line 278), where `comp["CostPerLicense"]` is the per-vendor sum. -/
def wastedSpend (rows : List Row) (v : String) : ℚ :=
  max 0 (underUtilization rows v) * sumBy rows v Row.CostPerLicense

/-- `by_vendor["UnusedLicenses"] = (by_vendor["EntitledLicenses"] - by_vendor["ActualUsage"]).clip(lower=0)`
(line 324). -/
def unusedLicenses (rows : List Row) (v : String) : ℚ :=
  max 0 (sumBy rows v Row.EntitledLicenses - sumBy rows v Row.ActualUsage)

/-- `by_vendor["ShelfwareSavings($)"] = by_vendor["UnusedLicenses"] * by_vendor["CostPerLicense"]`
(line 325). -/
def shelfwareSavings (rows : List Row) (v : String) : ℚ :=
  unusedLicenses rows v * sumBy rows v Row.CostPerLicense

/-- `total_shelfware = by_vendor["ShelfwareSavings($)"].sum()` (line 327):
the shelfware-savings column summed over the distinct vendors. -/
def total_shelfware (rows : List Row) : ℚ :=
  ((vendors rows).map (shelfwareSavings rows)).sum

/-- `compliant_vendors = (compliance_df["ActualUsage"] <= compliance_df["EntitledLicenses"]).sum()`
(line 201): the number of vendor groups whose summed usage does not exceed
their summed entitlement. -/
def compliant_vendors (rows : List Row) : ℕ :=
  ((vendors rows).filter
    (fun v => decide (sumBy rows v Row.ActualUsage ≤ sumBy rows v Row.EntitledLicenses))).length

/-- `total_vendors = compliance_df.shape[0]` (line 202): the number of
distinct vendors. -/
def total_vendors (rows : List Row) : ℕ :=
  (vendors rows).length

/-- `compliance_rate = (compliant_vendors / total_vendors) * 100 if total_vendors else 0`
(line 203). -/
def compliance_rate (rows : List Row) : ℚ :=
  if total_vendors rows = 0 then 0
  else ((compliant_vendors rows : ℚ) / (total_vendors rows : ℚ)) * 100

/-- `actual_spend = (sam["EntitledLicenses"] * sam["CostPerLicense"]).sum()`
(line 194). -/
def actual_spend (rows : List Row) : ℚ :=
  (rows.map (fun r => r.EntitledLicenses * r.CostPerLicense)).sum

/-- `effective_spend = (sam["ActualUsage"] * sam["CostPerLicense"]).sum()`
(line 195). -/
def effective_spend (rows : List Row) : ℚ :=
  (rows.map (fun r => r.ActualUsage * r.CostPerLicense)).sum

/-- `overspend = max(0.0, actual_spend - budget)` (line 196). -/
def overspend (rows : List Row) (budget : ℚ) : ℚ :=
  max 0 (actual_spend rows - budget)

/-- `unused_waste = max(0.0, actual_spend - effective_spend)` (line 197). -/
def unused_waste (rows : List Row) : ℚ :=
  max 0 (actual_spend rows - effective_spend rows)

/-- `savings_opportunity = overspend + unused_waste` (line 198). -/
def savings_opportunity (rows : List Row) (budget : ℚ) : ℚ :=
  overspend rows budget + unused_waste rows

/-- The row predicate of
`m365 = sam[(sam["Vendor"] == "Microsoft 365") & (sam["Edition"].isin(["E5","E3"])) & (sam["ActualUsage"] <= 1)]`
(line 338). -/
def m365Match (r : Row) : Bool :=
  r.Vendor == "Microsoft 365" && (r.Edition == "E5" || r.Edition == "E3")
    && decide (r.ActualUsage ≤ 1)

/-- `np.where(m365["Edition"]=="E5", 0.8*m365["CostPerLicense"], 0.4*m365["CostPerLicense"])`
(line 339), per matched row. -/
def downgradeSavingsPer (r : Row) : ℚ :=
  if r.Edition = "E5" then (8 / 10) * r.CostPerLicense
  else (4 / 10) * r.CostPerLicense

/-- Lines 337-342: when the columns `{Vendor, Edition, ActualUsage, CostPerLicense}`
are all present (`hasCols = true`) the potential downgrade savings is the sum of
`downgradeSavingsPer` over the matching rows; otherwise it is the fixed
`base_downgrade_savings = 65000`.  `hasCols` models the
`issubset(sam.columns)` test. -/
def potential_downgrade_savings (hasCols : Bool) (rows : List Row) : ℚ :=
  if hasCols then ((rows.filter m365Match).map downgradeSavingsPer).sum
  else 65000

/-- `scenario_shelfware = total_shelfware * (rec_rate / 100)` (line 335). -/
def scenario_shelfware (rows : List Row) (recRate : ℚ) : ℚ :=
  total_shelfware rows * (recRate / 100)

/-- `scenario_downgrade = potential_downgrade_savings * (dwn_rate / 100)` (line 344). -/
def scenario_downgrade (hasCols : Bool) (rows : List Row) (dwnRate : ℚ) : ℚ :=
  potential_downgrade_savings hasCols rows * (dwnRate / 100)

/-- `consolidation_savings = 40000` (line 329). -/
def consolidation_savings : ℚ := 40000

/-- `scenario_total = scenario_shelfware + scenario_downgrade + consolidation_savings`
(line 345). -/
def scenario_total (hasCols : Bool) (rows : List Row) (recRate dwnRate : ℚ) : ℚ :=
  scenario_shelfware rows recRate + scenario_downgrade hasCols rows dwnRate
    + consolidation_savings

/-- Character-list test: `n` occurs at the start of `hay`. -/
def startsWithCL : List Char → List Char → Bool
  | [], _ => true
  | _ :: _, [] => false
  | a :: as, b :: bs => a == b && startsWithCL as bs

/-- Character-list test: `n` occurs contiguously somewhere in `hay`. -/
def containsCL (n : List Char) : List Char → Bool
  | [] => startsWithCL n []
  | c :: cs => startsWithCL n (c :: cs) || containsCL n cs

/-- `str(query).strip()`: the query's characters with whitespace dropped
from both ends. -/
def stripQ (q : String) : List Char :=
  ((q.toList.dropWhile Char.isWhitespace).reverse.dropWhile
    Char.isWhitespace).reverse

/-- A string's characters lower-cased (the `case=False` coercion). -/
def lowerCL (s : String) : List Char := s.toList.map Char.toLower

/-- The stripped, lower-cased search pattern built from the raw query. -/
def searchNeedle (q : String) : List Char := (stripQ q).map Char.toLower

/-- `series.astype(str).str.contains(q, case=False)`: case-insensitive
containment of the needle in column value `s`. -/
def containsCI (s : String) (needle : List Char) : Bool :=
  containsCL needle (lowerCL s)

/-- The search mask of lines 172-179: the stripped query matches (case
insensitively) one of the five searchable text columns. -/
def searchMask (r : Row) (q : String) : Bool :=
  containsCI r.EmployeeID (searchNeedle q) || containsCI r.DeviceID (searchNeedle q)
    || containsCI r.Location (searchNeedle q) || containsCI r.Vendor (searchNeedle q)
    || containsCI r.Product (searchNeedle q)

/-- Lines 164-168: the categorical filters.  An empty selection applies no
filter (`if vendor_filter:` / `if location_filter:` skip on an empty list);
a non-empty selection keeps the rows whose value is in the selection
(`isin`). -/
def base_filtered (rows : List Row) (vendorSel locSel : List String) : List Row :=
  let b1 := if vendorSel.isEmpty then rows
            else rows.filter (fun r => vendorSel.contains r.Vendor)
  if locSel.isEmpty then b1
  else b1.filter (fun r => locSel.contains r.Location)

/-- Lines 170-180: `filtered_df` applies the free-text search on top of the
categorical filters.  `if query:` is false exactly on the empty string; a
non-empty query is stripped (`q = str(query).strip()`) and matched with
`searchMask`. -/
def filtered_df (rows : List Row) (vendorSel locSel : List String)
    (query : String) : List Row :=
  let b := base_filtered rows vendorSel locSel
  if query = "" then b
  else b.filter (fun r => searchMask r query)

/-- `monthly["Spend"].mean()`: the arithmetic mean of a list of rationals
(0 on the empty list, by rational division by zero — the empty case is never
reached through a non-empty series). -/
def meanQ (xs : List ℚ) : ℚ := xs.sum / (xs.length : ℚ)

/-- `monthly["Spend"].std()`: pandas sample variance (`ddof=1`), the sum of
squared deviations from the mean divided by `n - 1`.  The standard deviation
is its square root; `anomalyFlag` below compares against it squared. -/
def sampleVar (xs : List ℚ) : ℚ :=
  ((xs.map (fun x => (x - meanQ xs) ^ 2)).sum) / ((xs.length : ℚ) - 1)

/-- `monthly["Spend"] > (mean_spend + 2*std_spend)` (line 130) for one spend
value `v` against the series `xs`, expressed exactly over ℚ: for σ ≥ 0,
`v > μ + 2σ ↔ v - μ > 0 ∧ (v - μ)² > 4σ²`, and σ² is `sampleVar xs`.  When
the series has fewer than two points pandas `std()` is NaN and the `>`
comparison is False, modelled by the length guard. -/
def anomalyFlag (xs : List ℚ) (v : ℚ) : Bool :=
  if xs.length < 2 then false
  else decide (0 < v - meanQ xs) && decide (4 * sampleVar xs < (v - meanQ xs) ^ 2)

/-- `anomalies = monthly[monthly["Anomaly"]]` (lines 130-131): the rows of the
monthly series whose spend is flagged, in original order. -/
def anomalies (monthly : List (String × ℚ)) : List (String × ℚ) :=
  monthly.filter (fun p => anomalyFlag (monthly.map Prod.snd) p.2)

/-- One row of the raw legacy CSV (`telemetry_data.csv`).  The required
columns carry total values; for each optional column the value stored here is
meaningful only when the matching presence flag of `LegacyTable` is set
(pandas column presence is a property of the whole table, tested with
`"col" not in df.columns`).  A present `ContractEndDate` cell is `some d`
(days since epoch) when parseable and `none` when
`pd.to_datetime(..., errors="coerce")` yields NaT. -/
structure LegacyRow where
  EmployeeID : String
  DeviceID : String
  Vendor : String
  Product : String
  Location : String
  DeploymentType : String
  EntitledLicenses : ℚ
  ActualUsage : ℚ
  CostPerLicense : ℚ
  LastUsedDays : ℚ
  Department : String
  ContractEndDate : Option ℤ
  IsEOL : ℚ
  KnownVulns : ℚ
  DaysSincePatch : ℚ
  Edition : String
  LicenseType : String
deriving DecidableEq, Repr

/-- A raw legacy table: its rows plus one presence flag per optional column
(`"CostPerLicense" in df.columns`, and so on). -/
structure LegacyTable where
  rows : List LegacyRow
  hasCost : Bool
  hasLastUsed : Bool
  hasDept : Bool
  hasContract : Bool
  hasIsEOL : Bool
  hasVulns : Bool
  hasPatch : Bool
  hasEdition : Bool
  hasLicType : Bool
deriving DecidableEq, Repr

/-- The `cost_map` of line 21 composed with `.fillna(25)` (line 23): the fixed
vendor-to-price mapping; vendors outside the mapping get the flat fallback 25. -/
def cost_map (v : String) : ℚ :=
  if v = "Microsoft 365" then 15
  else if v = "Adobe CC" then 25
  else if v = "Oracle DB" then 500
  else if v = "SQL Server" then 300
  else if v = "Zoom" then 12
  else if v = "Salesforce" then 120
  else 25

/-- One row of the normalized table produced by `load_sam`'s legacy branch:
every field is total — in particular `ContractEndDate` is a plain day number,
never missing.  This totality is the "every optional field populated"
invariant. -/
structure NormRow where
  EmployeeID : String
  DeviceID : String
  Vendor : String
  Product : String
  Location : String
  DeploymentType : String
  EntitledLicenses : ℚ
  ActualUsage : ℚ
  CostPerLicense : ℚ
  LastUsedDays : ℚ
  Department : String
  ContractEndDate : ℤ
  IsEOL : ℚ
  KnownVulns : ℚ
  DaysSincePatch : ℚ
  Edition : String
  LicenseType : String
deriving DecidableEq, Repr

/-- The backfill of lines 20-42 applied to one row.  `today` is
`pd.Timestamp.today().normalize()` as a day number and `off` the per-row
draw of `np.random.randint(30, 365)` (injected, since the source draws it
from an unseeded generator).  An absent column is replaced by its default;
a present-but-unparseable `ContractEndDate` falls back to today
(`.fillna(pd.Timestamp.today())`, line 32). -/
def normRow (today off : ℤ) (t : LegacyTable) (r : LegacyRow) : NormRow :=
  { EmployeeID := r.EmployeeID
    DeviceID := r.DeviceID
    Vendor := r.Vendor
    Product := r.Product
    Location := r.Location
    DeploymentType := r.DeploymentType
    EntitledLicenses := r.EntitledLicenses
    ActualUsage := r.ActualUsage
    CostPerLicense := if t.hasCost then r.CostPerLicense else cost_map r.Vendor
    LastUsedDays := if t.hasLastUsed then r.LastUsedDays else 0
    Department := if t.hasDept then r.Department else "Unknown"
    ContractEndDate := if t.hasContract then r.ContractEndDate.getD today
                       else today + off
    IsEOL := if t.hasIsEOL then r.IsEOL else 0
    KnownVulns := if t.hasVulns then r.KnownVulns else 0
    DaysSincePatch := if t.hasPatch then r.DaysSincePatch else 30
    Edition := if t.hasEdition then r.Edition else "Standard"
    LicenseType := if t.hasLicType then r.LicenseType else "Subscription" }

/-- The legacy branch of `load_sam` (lines 18-43) over the whole table,
threading the row index so each row receives its own random offset
`offs i`. -/
def loadRows (today : ℤ) (offs : ℕ → ℤ) (t : LegacyTable) :
    ℕ → List LegacyRow → List NormRow
  | _, [] => []
  | i, r :: rs => normRow today (offs i) t r :: loadRows today offs t (i + 1) rs

/-- `load_sam` in its legacy branch: normalize every row of the table. -/
def load_sam_legacy (today : ℤ) (offs : ℕ → ℤ) (t : LegacyTable) : List NormRow :=
  loadRows today offs t 0 t.rows

/-- Default legacy row, used as the `getD` fallback in statements. -/
def dLeg : LegacyRow :=
  { EmployeeID := "", DeviceID := "", Vendor := "", Product := "", Location := ""
    DeploymentType := "", EntitledLicenses := 0, ActualUsage := 0
    CostPerLicense := 0, LastUsedDays := 0, Department := ""
    ContractEndDate := none, IsEOL := 0, KnownVulns := 0, DaysSincePatch := 0
    Edition := "", LicenseType := "" }

/-- Default normalized row, used as the `getD` fallback in statements. -/
def dNorm : NormRow :=
  { EmployeeID := "", DeviceID := "", Vendor := "", Product := "", Location := ""
    DeploymentType := "", EntitledLicenses := 0, ActualUsage := 0
    CostPerLicense := 0, LastUsedDays := 0, Department := ""
    ContractEndDate := 0, IsEOL := 0, KnownVulns := 0, DaysSincePatch := 0
    Edition := "", LicenseType := "" }

/-- A row whose vendor is over-used (usage 3 exceeds entitlement 1). -/
def rowOverused : Row :=
  { EmployeeID := "e1", DeviceID := "d1", Vendor := "A", Product := "p"
    Location := "l", Department := "IT", Edition := "Standard"
    EntitledLicenses := 1, ActualUsage := 3, CostPerLicense := 10 }

/-- A row whose vendor is under-used (entitlement 5 exceeds usage 2). -/
def rowUnderused : Row :=
  { EmployeeID := "e2", DeviceID := "d2", Vendor := "B", Product := "q"
    Location := "l", Department := "IT", Edition := "Standard"
    EntitledLicenses := 5, ActualUsage := 2, CostPerLicense := 4 }

/-- Sums over a vendor group of an everywhere-non-negative column are
non-negative. -/
theorem sumBy_nonneg (rows : List Row) (v : String) (f : Row → ℚ)
    (h : ∀ r ∈ rows, 0 ≤ f r) : 0 ≤ sumBy rows v f := by
  apply List.sum_nonneg
  intro x hx
  rcases List.mem_map.mp hx with ⟨r, hr, rfl⟩
  exact h r (List.mem_of_mem_filter hr)

/-- With non-negative per-row costs, the baseline shelfware total is
non-negative: every per-vendor term is a clamped quantity times a
non-negative cost sum. -/
theorem total_shelfware_nonneg (rows : List Row)
    (hC : ∀ r ∈ rows, 0 ≤ r.CostPerLicense) : 0 ≤ total_shelfware rows := by
  apply List.sum_nonneg
  intro x hx
  rcases List.mem_map.mp hx with ⟨v, hv, rfl⟩
  exact mul_nonneg (le_max_left 0 _) (sumBy_nonneg rows v Row.CostPerLicense hC)

/-- Claim C1 (counterexample): for the one-row table whose only vendor "A" has
entitlement 1 and usage 3, the `UnderUtilization` column of `comp` is -2: it
is negative and differs from `max 0 (entitled - usage) = 0`, so the claim
that the per-vendor Under-utilization equals the clamped difference and is
never negative fails on the code. -/
theorem underUtilization_negative_cex :
    "A" ∈ vendors [rowOverused] ∧
    underUtilization [rowOverused] "A" = -2 ∧
    underUtilization [rowOverused] "A" ≠
      max 0 (sumBy [rowOverused] "A" Row.EntitledLicenses
        - sumBy [rowOverused] "A" Row.ActualUsage) ∧
    underUtilization [rowOverused] "A" < 0 := by
  have hE : sumBy [rowOverused] "A" Row.EntitledLicenses = 1 := by
    norm_num [sumBy, rowOverused]
  have hU : sumBy [rowOverused] "A" Row.ActualUsage = 3 := by
    norm_num [sumBy, rowOverused]
  have h2 : underUtilization [rowOverused] "A" = -2 := by
    norm_num [underUtilization, sumBy, rowOverused]
  refine ⟨by decide, h2, ?_, by rw [h2]; norm_num⟩
  rw [h2, hE, hU]
  rw [show max (0 : ℚ) (1 - 3) = 0 from max_eq_left (by norm_num)]
  norm_num

/-- Claim C1 (amended): the per-vendor `UnderUtilization` column equals the
unclamped difference of aggregated entitlement and usage and may be negative;
the clamped quantity `max 0 (entitled - usage)` is `by_vendor`'s
`UnusedLicenses`, which is never negative, and `WastedSpend` likewise clamps
`UnderUtilization` at zero before multiplying by the aggregated cost. -/
theorem underUtilization_amended (rows : List Row) :
    ∀ v ∈ vendors rows,
      underUtilization rows v =
          sumBy rows v Row.EntitledLicenses - sumBy rows v Row.ActualUsage ∧
      unusedLicenses rows v =
          max 0 (sumBy rows v Row.EntitledLicenses - sumBy rows v Row.ActualUsage) ∧
      0 ≤ unusedLicenses rows v ∧
      wastedSpend rows v =
          max 0 (underUtilization rows v) * sumBy rows v Row.CostPerLicense := by
  intro v hv
  exact ⟨rfl, rfl, le_max_left 0 _, rfl⟩

/-- Witness for `underUtilization_amended` at the concrete one-row table. -/
theorem underUtilization_amended_witness :
    0 ≤ unusedLicenses [rowOverused] "A" :=
  (underUtilization_amended [rowOverused] "A" (by decide)).2.2.1

/-- Claim C2: the compliance rate is `100 × compliant / total` with the
no-vendor case defined as 0, and it always lies in `[0, 100]`. -/
theorem compliance_rate_spec (rows : List Row) :
    compliance_rate rows =
        (if total_vendors rows = 0 then 0
         else 100 * (compliant_vendors rows : ℚ) / (total_vendors rows : ℚ)) ∧
    0 ≤ compliance_rate rows ∧ compliance_rate rows ≤ 100 ∧
    (vendors rows = [] → compliance_rate rows = 0) := by
  by_cases h : total_vendors rows = 0
  · refine ⟨by simp [compliance_rate, h], by simp [compliance_rate, h],
      by simp [compliance_rate, h], fun _ => by simp [compliance_rate, h]⟩
  · have ht : (0 : ℚ) < (total_vendors rows : ℚ) := by
      exact_mod_cast Nat.pos_of_ne_zero h
    have hct : compliant_vendors rows ≤ total_vendors rows :=
      List.length_filter_le _ _
    have hctq : (compliant_vendors rows : ℚ) ≤ (total_vendors rows : ℚ) := by
      exact_mod_cast hct
    have hdiv1 : (compliant_vendors rows : ℚ) / (total_vendors rows : ℚ) ≤ 1 :=
      (div_le_one ht).mpr hctq
    have hdiv0 : 0 ≤ (compliant_vendors rows : ℚ) / (total_vendors rows : ℚ) :=
      div_nonneg (by positivity) (le_of_lt ht)
    refine ⟨?_, ?_, ?_, ?_⟩
    · simp only [compliance_rate, h, if_false]
      ring
    · simp only [compliance_rate, h, if_false]
      positivity
    · simp only [compliance_rate, h, if_false]
      calc (compliant_vendors rows : ℚ) / (total_vendors rows : ℚ) * 100
          ≤ 1 * 100 := by nlinarith
        _ = 100 := by norm_num
    · intro hnil
      exact absurd (by simp [total_vendors, hnil]) h

/-- Witness for `compliance_rate_spec`: the empty table has compliance rate 0. -/
theorem compliance_rate_spec_witness : compliance_rate [] = 0 :=
  (compliance_rate_spec []).2.2.2 rfl

/-- Claim C3: for every vendor, `OverUsage` and `UnderUtilization` are exact
negations of each other, so their minimum is never positive — a vendor cannot
have both strictly positive. -/
theorem overUsage_underUtilization_exclusive (rows : List Row) :
    ∀ v ∈ vendors rows,
      min (overUsage rows v) (underUtilization rows v) ≤ 0 := by
  intro v hv
  have h : underUtilization rows v = -(overUsage rows v) := by
    unfold underUtilization overUsage
    ring
  rcases le_total (overUsage rows v) 0 with h0 | h0
  · exact le_trans (min_le_left _ _) h0
  · rw [h]
    exact le_trans (min_le_right _ _) (by linarith)

/-- Witness for `overUsage_underUtilization_exclusive` at the concrete
one-row table. -/
theorem overUsage_underUtilization_exclusive_witness :
    min (overUsage [rowOverused] "A") (underUtilization [rowOverused] "A") ≤ 0 :=
  overUsage_underUtilization_exclusive [rowOverused] "A" (by decide)

/-- Claim C4: with non-negative per-row costs, for every vendor the penalty
risk is the clamped over-usage times the constant 200, and both the penalty
risk and the wasted spend are non-negative. -/
theorem penaltyRisk_wastedSpend_spec (rows : List Row)
    (hC : ∀ r ∈ rows, 0 ≤ r.CostPerLicense) :
    ∀ v ∈ vendors rows,
      penaltyRisk rows v = max 0 (overUsage rows v) * 200 ∧
      0 ≤ penaltyRisk rows v ∧ 0 ≤ wastedSpend rows v := by
  intro v hv
  refine ⟨rfl, mul_nonneg (le_max_left 0 _) (by norm_num),
    mul_nonneg (le_max_left 0 _) (sumBy_nonneg rows v Row.CostPerLicense hC)⟩

/-- Witness for `penaltyRisk_wastedSpend_spec` at the concrete one-row
table. -/
theorem penaltyRisk_wastedSpend_spec_witness :
    0 ≤ penaltyRisk [rowOverused] "A" ∧ 0 ≤ wastedSpend [rowOverused] "A" :=
  ⟨(penaltyRisk_wastedSpend_spec [rowOverused] (by decide) "A" (by decide)).2.1,
   (penaltyRisk_wastedSpend_spec [rowOverused] (by decide) "A" (by decide)).2.2⟩

/-- The empty needle is contained in every character list. -/
theorem containsCL_nil (l : List Char) : containsCL [] l = true := by
  cases l <;> simp [containsCL, startsWithCL]

/-- With a query that strips to nothing every row passes the search mask: an
empty pattern is contained in every column value. -/
theorem searchMask_blank (r : Row) (q : String) (hq : stripQ q = []) :
    searchMask r q = true := by
  simp [searchMask, containsCI, searchNeedle, hq, containsCL_nil]

/-- Claim C5: with both categorical selections empty and a query that strips
to the empty string (empty or whitespace-only), the filter evaluator returns
the table unchanged, so the displayed filtered count equals the total
count. -/
theorem filtered_df_noop (rows : List Row) (query : String)
    (hq : stripQ query = []) :
    filtered_df rows [] [] query = rows ∧
    (filtered_df rows [] [] query).length = rows.length := by
  have hbase : base_filtered rows [] [] = rows := by
    simp [base_filtered]
  have hmain : filtered_df rows [] [] query = rows := by
    by_cases h : query = ""
    · simp [filtered_df, hbase, h]
    · simp only [filtered_df, hbase, h, if_false]
      exact List.filter_eq_self.mpr (fun a _ => searchMask_blank a query hq)
  exact ⟨hmain, by rw [hmain]⟩

/-- Witness for `filtered_df_noop`: a whitespace-only query on a concrete
one-row table passes the row through. -/
theorem filtered_df_noop_witness :
    filtered_df [rowOverused] [] [] "  " = [rowOverused] :=
  (filtered_df_noop [rowOverused] "  " (by decide)).1

/-- Claim C6: Actual spend is the row-wise sum of entitlement times cost,
Effective spend the row-wise sum of usage times cost, and the savings
opportunity is the sum of the clamped budget overrun and the clamped
actual-minus-effective gap. -/
theorem savings_opportunity_spec (rows : List Row) (budget : ℚ)
    (hb : 0 ≤ budget) :
    actual_spend rows =
        (rows.map (fun r => r.EntitledLicenses * r.CostPerLicense)).sum ∧
    effective_spend rows =
        (rows.map (fun r => r.ActualUsage * r.CostPerLicense)).sum ∧
    savings_opportunity rows budget =
        max 0 (actual_spend rows - budget)
          + max 0 (actual_spend rows - effective_spend rows) :=
  ⟨rfl, rfl, rfl⟩

/-- Witness for `savings_opportunity_spec` at a concrete table and budget 0. -/
theorem savings_opportunity_spec_witness :
    savings_opportunity [rowOverused] 0 =
        max 0 (actual_spend [rowOverused] - 0)
          + max 0 (actual_spend [rowOverused] - effective_spend [rowOverused]) :=
  (savings_opportunity_spec [rowOverused] 0 (le_refl 0)).2.2

/-- Claim C7: with non-negative per-row costs and a fixed downgrade percent
in `[0, 100]`, the scenario total is monotone in the reclaim percent over
`[0, 100]`: only the shelfware term depends on it and the shelfware baseline
is non-negative. -/
theorem scenario_total_monotone (rows : List Row) (hasCols : Bool)
    (hC : ∀ r ∈ rows, 0 ≤ r.CostPerLicense) (d r1 r2 : ℚ)
    (hd0 : 0 ≤ d) (hd1 : d ≤ 100) (hr0 : 0 ≤ r1) (hr12 : r1 ≤ r2)
    (hr2 : r2 ≤ 100) :
    scenario_total hasCols rows r1 d ≤ scenario_total hasCols rows r2 d := by
  have hsh : 0 ≤ total_shelfware rows := total_shelfware_nonneg rows hC
  unfold scenario_total scenario_shelfware
  nlinarith [mul_nonneg hsh (sub_nonneg.mpr hr12)]

/-- Witness for `scenario_total_monotone` on a concrete under-used table with
reclaim percents 10 ≤ 40, downgrade percent 30. -/
theorem scenario_total_monotone_witness :
    scenario_total true [rowUnderused] 10 30
      ≤ scenario_total true [rowUnderused] 40 30 :=
  scenario_total_monotone [rowUnderused] true (by decide) 30 10 40
    (by norm_num) (by norm_num) (by norm_num) (by norm_num) (by norm_num)

/-- Claim C10: when the four needed columns are present (first component of
the `issubset` test true) but no row matches the Microsoft 365 E5/E3
low-usage predicate, the baseline downgrade savings is the empty sum 0 and
the scenario downgrade component is 0 for every downgrade percent; the
fixed fallback 65000 arises exactly when a column is absent. -/
theorem potential_downgrade_empty_match (rows : List Row)
    (h : ∀ r ∈ rows, m365Match r = false) :
    potential_downgrade_savings true rows = 0 ∧
    (∀ d : ℚ, scenario_downgrade true rows d = 0) ∧
    (∀ rs : List Row, potential_downgrade_savings false rs = 65000) := by
  have hf : rows.filter m365Match = [] :=
    List.filter_eq_nil_iff.mpr (fun a ha => by simp [h a ha])
  refine ⟨?_, ?_, fun rs => rfl⟩
  · simp [potential_downgrade_savings, hf]
  · intro d
    simp [scenario_downgrade, potential_downgrade_savings, hf]

/-- Witness for `potential_downgrade_empty_match` on a concrete table whose
only vendor is not Microsoft 365. -/
theorem potential_downgrade_empty_match_witness :
    potential_downgrade_savings true [rowOverused] = 0 :=
  (potential_downgrade_empty_match [rowOverused] (by decide)).1

/-- The anomaly flag holds exactly when the series has at least two points
and the value exceeds `mean + 2·std`, expressed as the equivalent pair of
rational inequalities. -/
theorem anomalyFlag_iff (xs : List ℚ) (v : ℚ) :
    anomalyFlag xs v = true ↔
      2 ≤ xs.length ∧ 0 < v - meanQ xs ∧
        4 * sampleVar xs < (v - meanQ xs) ^ 2 := by
  unfold anomalyFlag
  split_ifs with h
  · simp only [Bool.false_eq_true, false_iff]
    rintro ⟨h1, _⟩
    omega
  · simp only [Bool.and_eq_true, decide_eq_true_eq]
    constructor
    · rintro ⟨h1, h2⟩
      exact ⟨Nat.not_lt.mp h, h1, h2⟩
    · rintro ⟨_, h1, h2⟩
      exact ⟨h1, h2⟩

/-- Claim C8: the flagged months are a sub-sequence of the input (original
order preserved), a month is flagged exactly when its spend exceeds
`mean + 2·std` of the series (with fewer than two points nothing is flagged,
as the pandas NaN comparison is false), and a constant series flags zero
anomalies. -/
theorem anomalies_spec (m : List (String × ℚ)) :
    (anomalies m).Sublist m ∧
    (∀ p, p ∈ anomalies m ↔ p ∈ m ∧
        (2 ≤ m.length ∧ 0 < p.2 - meanQ (m.map Prod.snd) ∧
          4 * sampleVar (m.map Prod.snd) < (p.2 - meanQ (m.map Prod.snd)) ^ 2)) ∧
    (∀ c, (∀ p ∈ m, p.2 = c) → anomalies m = []) := by
  refine ⟨List.filter_sublist m, ?_, ?_⟩
  · intro p
    rw [anomalies, List.mem_filter, anomalyFlag_iff]
    simp [List.length_map]
  · intro c hc
    apply List.filter_eq_nil_iff.mpr
    intro p hp
    rw [anomalyFlag_iff]
    rintro ⟨hlen, hpos, _⟩
    have hall : ∀ x ∈ m.map Prod.snd, x = c := by
      intro x hx
      rcases List.mem_map.mp hx with ⟨q, hq, rfl⟩
      exact hc q hq
    have hsum : (m.map Prod.snd).sum = (m.map Prod.snd).length • c :=
      List.sum_eq_card_nsmul _ c hall
    have h0 : (m.map Prod.snd).length ≠ 0 := by omega
    have hlen' : (((m.map Prod.snd).length : ℕ) : ℚ) ≠ 0 :=
      Nat.cast_ne_zero.mpr h0
    have hmean : meanQ (m.map Prod.snd) = c := by
      rw [meanQ, hsum, nsmul_eq_mul]
      exact mul_div_cancel_left₀ c hlen'
    rw [hc p hp, hmean] at hpos
    simp at hpos

/-- Witness for `anomalies_spec`: a constant two-month series flags no
anomaly. -/
theorem anomalies_spec_witness : anomalies [("Jan", 5), ("Feb", 5)] = [] :=
  (anomalies_spec [("Jan", 5), ("Feb", 5)]).2.2 5 (by decide)

/-- Normalization preserves the number of records. -/
theorem loadRows_length (today : ℤ) (offs : ℕ → ℤ) (t : LegacyTable) :
    ∀ (i : ℕ) (rs : List LegacyRow),
      (loadRows today offs t i rs).length = rs.length := by
  intro i rs
  induction rs generalizing i with
  | nil => rfl
  | cons r rs ih => simp [loadRows, ih]

/-- The `j`-th row of the normalized output is the backfill of the `j`-th
input row with the offset drawn at its absolute index. -/
theorem loadRows_getD (today : ℤ) (offs : ℕ → ℤ) (t : LegacyTable) :
    ∀ (rs : List LegacyRow) (i j : ℕ), j < rs.length →
      (loadRows today offs t i rs).getD j dNorm =
        normRow today (offs (i + j)) t (rs.getD j dLeg) := by
  intro rs
  induction rs with
  | nil =>
    intro i j h
    simp at h
  | cons r rs ih =>
    intro i j h
    cases j with
    | zero => simp [loadRows]
    | succ j =>
      have hj : j < rs.length := by simpa using h
      have := ih (i + 1) j hj
      simp only [loadRows, List.getD_cons_succ, this]
      have harith : i + 1 + j = i + (j + 1) := by omega
      rw [harith]

/-- A legacy row whose vendor is outside the fixed price mapping, with a
cell-level unparseable contract date. -/
def exLegRow : LegacyRow :=
  { EmployeeID := "e9", DeviceID := "d9", Vendor := "V", Product := "p9"
    Location := "l9", DeploymentType := "OnPrem", EntitledLicenses := 2
    ActualUsage := 1, CostPerLicense := 0, LastUsedDays := 0, Department := ""
    ContractEndDate := none, IsEOL := 0, KnownVulns := 0, DaysSincePatch := 0
    Edition := "", LicenseType := "" }

/-- A legacy table with every optional column absent. -/
def exLegacy : LegacyTable :=
  { rows := [exLegRow], hasCost := false, hasLastUsed := false
    hasDept := false, hasContract := false, hasIsEOL := false
    hasVulns := false, hasPatch := false, hasEdition := false
    hasLicType := false }

/-- Claim C9: normalization of a legacy table keeps all rows, normalizes each
row positionally, and on every row substitutes exactly the documented
defaults for each absent column — the vendor-keyed price with flat fallback
25 for `CostPerLicense`, 0 for `LastUsedDays`, `"Unknown"` for `Department`,
0 for `IsEOL` and `KnownVulns`, 30 for `DaysSincePatch`, `"Standard"` for
`Edition`, `"Subscription"` for `LicenseType`, and a definite day number for
`ContractEndDate` (`today + offset` when the column is absent, `today` when a
present cell is unparseable).  Every field of the output row type is total,
so no field is left absent. -/
theorem load_sam_legacy_defaults (today : ℤ) (offs : ℕ → ℤ) (t : LegacyTable) :
    (load_sam_legacy today offs t).length = t.rows.length ∧
    (∀ i, i < t.rows.length →
      (load_sam_legacy today offs t).getD i dNorm =
        normRow today (offs i) t (t.rows.getD i dLeg)) ∧
    (∀ (off : ℤ) (r : LegacyRow),
      (t.hasCost = false →
        (normRow today off t r).CostPerLicense = cost_map r.Vendor) ∧
      (r.Vendor ∉ ["Microsoft 365", "Adobe CC", "Oracle DB", "SQL Server",
          "Zoom", "Salesforce"] → cost_map r.Vendor = 25) ∧
      (t.hasLastUsed = false → (normRow today off t r).LastUsedDays = 0) ∧
      (t.hasDept = false → (normRow today off t r).Department = "Unknown") ∧
      (t.hasIsEOL = false → (normRow today off t r).IsEOL = 0) ∧
      (t.hasVulns = false → (normRow today off t r).KnownVulns = 0) ∧
      (t.hasPatch = false → (normRow today off t r).DaysSincePatch = 30) ∧
      (t.hasEdition = false → (normRow today off t r).Edition = "Standard") ∧
      (t.hasLicType = false →
        (normRow today off t r).LicenseType = "Subscription") ∧
      (t.hasContract = false →
        (normRow today off t r).ContractEndDate = today + off) ∧
      (t.hasContract = true → r.ContractEndDate = none →
        (normRow today off t r).ContractEndDate = today)) := by
  refine ⟨loadRows_length today offs t 0 t.rows, ?_, ?_⟩
  · intro i hi
    have := loadRows_getD today offs t t.rows 0 i hi
    simpa using this
  · intro off r
    refine ⟨fun h => by simp [normRow, h], ?_, fun h => by simp [normRow, h],
      fun h => by simp [normRow, h], fun h => by simp [normRow, h],
      fun h => by simp [normRow, h], fun h => by simp [normRow, h],
      fun h => by simp [normRow, h], fun h => by simp [normRow, h],
      fun h => by simp [normRow, h], fun h1 h2 => by simp [normRow, h1, h2]⟩
    intro hnot
    simp only [List.mem_cons, List.not_mem_nil, or_false, not_or] at hnot
    obtain ⟨n1, n2, n3, n4, n5, n6⟩ := hnot
    simp [cost_map, n1, n2, n3, n4, n5, n6]

/-- Witness for `load_sam_legacy_defaults`: normalizing the concrete
all-columns-absent legacy table fills the first row with the defaults. -/
theorem load_sam_legacy_defaults_witness :
    (load_sam_legacy 0 (fun _ => 30) exLegacy).getD 0 dNorm =
      normRow 0 30 exLegacy exLegRow :=
  (load_sam_legacy_defaults 0 (fun _ => 30) exLegacy).2.1 0 (by decide)

end SAM
